/-
Verification of the Clubs-Council members microservice core logic:
role reconciliation, approval workflow, identifier assignment,
certificate state machine, and visibility filtering.

The definitions below are a shallow embedding of the Python source
(models.py, mutations.py, queries.py, utils.py, scripts/add_month_fields.py).
Times are passed in explicitly: `nowYear` for datetime.now().year,
`nowMs` for the millisecond timestamp used by the role-id pipeline, and
formatted time strings for the IST timestamps written into documents.
-/

import Mathlib

/-- A member's role, as stored in a Membership document (models.py `Roles`).
Years are `Nat`; `rid`, `end_year` and the two timestamp strings are optional
exactly as in the pydantic model. -/
structure Role where
  rid : Option String := none
  name : String
  start_year : Nat
  end_year : Option Nat := none
  approved : Bool := false
  approval_time : Option String := none
  rejected : Bool := false
  rejection_time : Option String := none
  deleted : Bool := false
deriving Repr, DecidableEq

/-- The client-supplied shape of a role (otypes.py `RolesInput`): only
`name`, `start_year` and `end_year` can be provided; every other field of
`Roles` is filled with its model default on validation. -/
structure RolesInput where
  name : String
  start_year : Nat
  end_year : Option Nat
deriving Repr, DecidableEq

/-- models.py `Roles.check_end_year`: an `end_year` smaller than
`start_year` is silently replaced by `None` (the role becomes ongoing);
no error is raised. -/
def check_end_year (start_year : Nat) (value : Option Nat) : Option Nat :=
  match value with
  | some v => if v < start_year then none else some v
  | none => none

/-- Pydantic's `str_strip_whitespace` (models.py model_config): leading
and trailing whitespace is removed from string fields before the other
constraints run. -/
def stripWhitespace (s : String) : String :=
  ⟨((s.data.dropWhile Char.isWhitespace).reverse.dropWhile
      Char.isWhitespace).reverse⟩

/-- Pydantic validation of one submitted role (models.py `Roles` field
constraints plus `check_end_year`), as run by `memberInput.to_pydantic()`:
name is stripped and must be 1..99 chars, `start_year ∈ [2010, 2050]`,
`end_year ∈ (2010, 2051]` when given; all non-input fields get their
defaults (`approved = false`, timestamps `none`, `deleted = false`). -/
def validateRole (inp : RolesInput) : Except String Role :=
  let name := stripWhitespace inp.name
  if name.length < 1 then
    .error "String should have at least 1 character"
  else if name.length > 99 then
    .error "String should have at most 99 characters"
  else if inp.start_year < 2010 then
    .error "Input should be greater than or equal to 2010"
  else if inp.start_year > 2050 then
    .error "Input should be less than or equal to 2050"
  else
    match inp.end_year with
    | some e =>
      if e ≤ 2010 then
        .error "Input should be greater than 2010"
      else if e > 2051 then
        .error "Input should be less than or equal to 2051"
      else
        .ok { name := name, start_year := inp.start_year,
              end_year := check_end_year inp.start_year (some e) }
    | none =>
      .ok { name := name, start_year := inp.start_year, end_year := none }

/-- Validation of a whole submitted role list: the first invalid role's
error aborts the request (pydantic raises on `to_pydantic()`). -/
def validateRoles : List RolesInput → Except String (List Role)
  | [] => .ok []
  | i :: is =>
    match validateRole i with
    | .error e => .error e
    | .ok r =>
      match validateRoles is with
      | .error e => .error e
      | .ok rs => .ok (r :: rs)

/-- mutations.py createMember/editMember explicit check: a role with a
(truthy) `end_year` and `start_year > end_year` raises
"Start year cannot be greater than end year". -/
def startAfterEndCheck (rs : List Role) : Bool :=
  rs.any (fun r =>
    match r.end_year with
    | some e => r.start_year > e
    | none => false)

/-- mutations.py future-start clamp (createMember lines 90-93, editMember
lines 182-184): a role whose `start_year` exceeds the current year has its
`start_year` set to the current year and its `end_year` cleared. -/
def clampRole (nowYear : Nat) (r : Role) : Role :=
  if r.start_year > nowYear then
    { r with start_year := nowYear, end_year := none }
  else r

/-- utils.py `unique_roles_id` aggregation pipeline, one step of the
`$map`: merge `{rid: toString(toLong(now) + index)}` onto the role at
`index`, for every index. `j` is the index of the head of the remaining
list. -/
def assignRids (nowMs : Nat) : Nat → List Role → List Role
  | _, [] => []
  | j, r :: rs =>
    { r with rid := some (toString (nowMs + j)) } :: assignRids nowMs (j + 1) rs

/-- utils.py `unique_roles_id`: rewrites the whole role list, merging a
fresh `rid` string (current time in ms plus the role's index) onto every
role, whether or not it already has a `rid`. -/
def unique_roles_id (nowMs : Nat) (roles : List Role) : List Role :=
  assignRids nowMs 0 roles

/-- editMember's match search (mutations.py lines 190-204): find the first
stored role with the same `start_year`, `end_year` and `name` as the
proposed role, and return it together with the pool with that occurrence
removed (`member_roles.remove(i)`). -/
def extractMatch (r : Role) : List Role → Option (Role × List Role)
  | [] => none
  | i :: rest =>
    if i.start_year = r.start_year ∧ i.end_year = r.end_year ∧ i.name = r.name then
      some (i, rest)
    else
      match extractMatch r rest with
      | some (m, rest') => some (m, i :: rest')
      | none => none

/-- editMember's handling of one proposed role (mutations.py lines
181-212): clamp a future start, then either carry over the matched stored
role's `approved`/`rejected`/`deleted` flags (removing it from the pool),
or treat the role as new: `approved` iff the caller is "cc",
`approval_time` stamped only for "cc", `rejection_time` cleared. -/
def reconcileRole (isCC : Bool) (timeStr : String) (nowYear : Nat)
    (pool : List Role) (r : Role) : Role × List Role :=
  let rc := clampRole nowYear r
  match extractMatch rc pool with
  | some (i, pool') =>
    ({ rc with approved := i.approved, rejected := i.rejected,
               deleted := i.deleted }, pool')
  | none =>
    ({ rc with approved := isCC,
               approval_time := if isCC then some timeStr else none,
               rejection_time := none }, pool)

/-- editMember's whole reconciliation loop: each proposed role is
reconciled against the remaining pool, threading the pool so a stored role
can be matched at most once. -/
def reconcileRoles (isCC : Bool) (timeStr : String) (nowYear : Nat)
    (pool : List Role) : List Role → List Role
  | [] => []
  | r :: rs =>
    let step := reconcileRole isCC timeStr nowYear pool r
    step.1 :: reconcileRoles isCC timeStr nowYear step.2 rs

/-- createMember's role processing (mutations.py lines 88-105): clamp
future starts, then, when the caller is "cc", force `approved := true` and
stamp `approval_time`; any other caller leaves the validated role as is. -/
def createRoles (isCC : Bool) (timeStr : String) (nowYear : Nat)
    (rs : List Role) : List Role :=
  rs.map (fun r =>
    let rc := clampRole nowYear r
    if isCC then { rc with approved := true, approval_time := some timeStr }
    else rc)

/-- The caller attached to a request (otypes.py `Context.user`): the
resolved role string ("cc", "club", "slo", ...) and the uid. A request
with no user is represented by `none` (queries treat it as "public"). -/
structure Caller where
  role : String
  uid : String
deriving Repr, DecidableEq

/-- The caller role string used by the queries: "public" when no user is
attached, the user's role otherwise. -/
def callerRole (user : Option Caller) : String :=
  match user with
  | none => "public"
  | some u => u.role

/-- mutations.py createMember, as a function of the pure data it touches:
the validated input roles, whether the caller is "cc", whether a record
with the same (cid, uid) already exists, and whether the uid resolves in
the User Directory. On success the stored role list is returned (insert
then `unique_roles_id`). Authentication/authorization failures are modelled
by the `authOk` flag. -/
def createMember (authOk : Bool) (isCC : Bool) (timeStr : String)
    (nowYear nowMs : Nat) (recordExists userValid : Bool)
    (inputs : List RolesInput) : Except String (List Role) :=
  match validateRoles inputs with
  | .error e => .error e
  | .ok rs =>
    if ¬authOk then .error "Not Authenticated to access this API"
    else if recordExists then
      .error "A record with same uid and cid already exists"
    else if ¬userValid then .error "Invalid User ID"
    else if rs.isEmpty then .error "Roles cannot be empty"
    else if startAfterEndCheck rs then
      .error "Start year cannot be greater than end year"
    else .ok (unique_roles_id nowMs (createRoles isCC timeStr nowYear rs))

/-- mutations.py editMember, as a function of the pure data it touches:
`stored` is the current role list of the (cid, uid) record, `none` when no
such record exists. On success the new stored role list is returned
(reconcile, `$set`, then `unique_roles_id`). -/
def editMember (authOk : Bool) (isCC : Bool) (timeStr : String)
    (nowYear nowMs : Nat) (stored : Option (List Role))
    (inputs : List RolesInput) : Except String (List Role) :=
  match validateRoles inputs with
  | .error e => .error e
  | .ok rs =>
    if ¬authOk then .error "Not Authenticated to access this API"
    else if rs.isEmpty then .error "Roles cannot be empty"
    else if startAfterEndCheck rs then
      .error "Start year cannot be greater than end year"
    else
      match stored with
      | none => .error "No such Record!"
      | some cur =>
        .ok (unique_roles_id nowMs (reconcileRoles isCC timeStr nowYear cur rs))

/-- The role filter of approveMember/rejectMember (mutations.py lines
362, 433): a falsy input `rid` selects every role, otherwise only the role
whose stored `rid` equals it. -/
def ridMatches (rid : Option String) (r : Role) : Bool :=
  match rid with
  | none => true
  | some s => r.rid = some s

/-- approveMember's per-role update (mutations.py lines 360-367): set
`approved`, stamp `approval_time`, clear `rejected` and `rejection_time`. -/
def approveRole (rid : Option String) (timeStr : String) (r : Role) : Role :=
  if ridMatches rid r then
    { r with approved := true, approval_time := some timeStr,
             rejected := false, rejection_time := none }
  else r

/-- rejectMember's per-role update (mutations.py lines 431-438): clear
`approved` and `approval_time`, stamp `rejection_time`, set `rejected`. -/
def rejectRole (rid : Option String) (timeStr : String) (r : Role) : Role :=
  if ridMatches rid r then
    { r with approved := false, approval_time := none,
             rejection_time := some timeStr, rejected := true }
  else r

/-- mutations.py approveMember on the located record's role list
(`none` when no record exists; caller must be "cc"). -/
def approveMember (isCC : Bool) (rid : Option String) (timeStr : String)
    (nowMs : Nat) (stored : Option (List Role)) : Except String (List Role) :=
  if ¬isCC then .error "Not Authenticated to access this API"
  else
    match stored with
    | none => .error "No such Record"
    | some rs => .ok (unique_roles_id nowMs (rs.map (approveRole rid timeStr)))

/-- mutations.py rejectMember on the located record's role list. -/
def rejectMember (isCC : Bool) (rid : Option String) (timeStr : String)
    (nowMs : Nat) (stored : Option (List Role)) : Except String (List Role) :=
  if ¬isCC then .error "Not Authenticated to access this API"
  else
    match stored with
    | none => .error "No such Record"
    | some rs => .ok (unique_roles_id nowMs (rs.map (rejectRole rid timeStr)))

/-- mutations.py deleteMember on the located record: with no `rid` the
whole Membership document is deleted (result `none`); with a `rid` only
the matching role is soft-deleted. -/
def deleteMember (authOk : Bool) (rid : Option String) (nowMs : Nat)
    (stored : Option (List Role)) : Except String (Option (List Role)) :=
  if ¬authOk then .error "Not Authenticated to access this API"
  else
    match stored with
    | none => .error "No such Record"
    | some rs =>
      match rid with
      | none => .ok none
      | some s =>
        .ok (some (unique_roles_id nowMs (rs.map (fun i =>
          if i.rid = some s then { i with deleted := true } else i))))

/-- One inbound mutation against a single (cid, uid) Membership, carrying
the request-time data each resolver reads from the clock. -/
inductive Op where
  | create (isCC : Bool) (timeStr : String) (nowYear nowMs : Nat)
      (userValid : Bool) (inputs : List RolesInput)
  | edit (isCC : Bool) (timeStr : String) (nowYear nowMs : Nat)
      (inputs : List RolesInput)
  | approve (isCC : Bool) (rid : Option String) (timeStr : String) (nowMs : Nat)
  | reject (isCC : Bool) (rid : Option String) (timeStr : String) (nowMs : Nat)
  | delete (rid : Option String) (nowMs : Nat)

/-- The stored state of one (cid, uid) Membership: `none` when no document
exists. A raised exception leaves the store untouched. -/
def applyOp (st : Option (List Role)) : Op → Option (List Role)
  | .create isCC t ny ms uv inputs =>
    match createMember true isCC t ny ms st.isSome uv inputs with
    | .ok rs => some rs
    | .error _ => st
  | .edit isCC t ny ms inputs =>
    match editMember true isCC t ny ms st inputs with
    | .ok rs => some rs
    | .error _ => st
  | .approve isCC rid t ms =>
    match approveMember isCC rid t ms st with
    | .ok rs => some rs
    | .error _ => st
  | .reject isCC rid t ms =>
    match rejectMember isCC rid t ms st with
    | .ok rs => some rs
    | .error _ => st
  | .delete rid ms =>
    match deleteMember true rid ms st with
    | .ok st' => st'
    | .error _ => st

/-- A whole sequence of mutations applied in order. -/
def applyOps (ops : List Op) (st : Option (List Role)) : Option (List Role) :=
  ops.foldl applyOp st

/-- The documented invariant: no role is both approved and rejected. -/
def rolesOk (l : List Role) : Prop :=
  ∀ r ∈ l, (r.approved && r.rejected) = false

/-- The invariant lifted to a possibly-absent Membership document. -/
def rolesOkState : Option (List Role) → Prop
  | none => True
  | some l => rolesOk l

/-- One Membership document as the queries see it (models.py `Member`,
restricted to the fields the role-list queries read and rewrite). -/
structure Member where
  cid : String
  uid : String
  poc : Bool := false
  roles : List Role
deriving Repr, DecidableEq

/-- The privileged-caller test of the members query (queries.py line
182-185): the caller role is "cc", or it is "club" and the caller's uid
equals the queried cid. With no user attached both disjuncts are false. -/
def privilegedForClub (user : Option Caller) (cid : String) : Bool :=
  match user with
  | none => false
  | some u => u.role = "cc" ∨ (u.role = "club" ∧ u.uid = cid)

/-- queries.py `members` per-role filter (lines 179-188): deleted roles
are skipped for everyone; an unprivileged caller additionally skips
unapproved roles. -/
def memberRoleVisible (user : Option Caller) (cid : String) (r : Role) : Bool :=
  if r.deleted then false
  else if ¬privilegedForClub user cid then r.approved
  else true

/-- queries.py `members` (listClubMembers) role-list assembly (lines
173-196): each fetched document keeps only its visible roles, and a
document whose visible role list is empty is not added to the result. -/
def membersQuery (user : Option Caller) (cid : String)
    (results : List Member) : List Member :=
  results.filterMap (fun m =>
    let rs := m.roles.filter (memberRoleVisible user cid)
    if rs.isEmpty then none else some { m with roles := rs })

/-- queries.py `memberRolesHelper` per-role filter (lines 118-124):
deleted roles are skipped; any caller other than "cc" also skips
unapproved roles. -/
def memberRolesVisible (user : Option Caller) (r : Role) : Bool :=
  if r.deleted then false
  else if callerRole user ≠ "cc" then r.approved
  else true

/-- queries.py `memberRolesHelper` assembly (lines 113-132). -/
def memberRolesQuery (user : Option Caller) (results : List Member) :
    List Member :=
  results.filterMap (fun m =>
    let rs := m.roles.filter (memberRolesVisible user)
    if rs.isEmpty then none else some { m with roles := rs })

/-- queries.py `currentMembers` per-role filter (lines 242-246): skip
deleted roles and roles with an `end_year`; skip unapproved roles, for
every caller. -/
def currentRoleVisible (r : Role) : Bool :=
  if r.deleted || ¬(r.end_year = none) then false
  else if ¬r.approved then false
  else true

/-- queries.py `currentMembers` assembly (lines 236-255). -/
def currentMembersQuery (results : List Member) : List Member :=
  results.filterMap (fun m =>
    let rs := m.roles.filter currentRoleVisible
    if rs.isEmpty then none else some { m with roles := rs })

/-- queries.py `pendingMembers` per-role filter (lines 289-292): keep only
roles that are neither deleted nor approved nor rejected. -/
def pendingRoleVisible (r : Role) : Bool :=
  ¬(r.deleted || r.approved || r.rejected)

/-- queries.py `pendingMembers` assembly (lines 283-300). -/
def pendingMembersQuery (results : List Member) : List Member :=
  results.filterMap (fun m =>
    let rs := m.roles.filter pendingRoleVisible
    if rs.isEmpty then none else some { m with roles := rs })

/-- Modelled from the spec: the `CertificateStates` enum is imported from
models.py by mutations.py and queries.py but is absent from the provided
models.py; §4.5 gives its four states (enums.py's partial
`CertificateStatusType` confirms the first three value strings). -/
inductive CertState where
  | pending_cc
  | pending_slo
  | approved
  | rejected
deriving Repr, DecidableEq

/-- The per-stage approval stamps written by approveCertificate
(`status.cc_approved_at`, `status.cc_approver`, `status.slo_approved_at`,
`status.slo_approver`). -/
structure CertStatus where
  cc_approved_at : Option String := none
  cc_approver : Option String := none
  slo_approved_at : Option String := none
  slo_approver : Option String := none
deriving Repr, DecidableEq

/-- A certificate document, restricted to the fields the workflow reads
and writes. -/
structure Certificate where
  user_id : String
  certificate_number : String
  certificate_data : String
  request_reason : Option String := none
  key : String
  state : CertState
  status : CertStatus := {}
deriving Repr, DecidableEq

/-- Modelled from the spec: the `Certificate` model constructor used by
requestCertificate (mutations.py lines 577-583) is imported from models.py
but absent from the provided src; per §3/§4.5 a certificate's initial
state on creation is `PENDING_CC` (requestCertificate passes no `state`,
so the model default applies). -/
def newCertificate (user_id certificate_number certificate_data : String)
    (request_reason : Option String) (key : String) : Certificate :=
  { user_id := user_id, certificate_number := certificate_number,
    certificate_data := certificate_data, request_reason := request_reason,
    key := key, state := CertState.pending_cc }

/-- mutations.py approveCertificate on the located certificate (`none`
when no document with that number exists): only "cc"/"slo" callers pass
the first check; a "cc" caller moves `pending_cc` to `pending_slo`
stamping the cc fields; an "slo" caller moves `pending_slo` to `approved`
stamping the slo fields; every other combination raises. -/
def approveCertificate (user : Option Caller) (timeStr : String)
    (cert : Option Certificate) : Except String Certificate :=
  match user with
  | none => .error "Not Authenticated or Unauthorized"
  | some u =>
    if u.role ≠ "cc" ∧ u.role ≠ "slo" then
      .error "Not Authenticated or Unauthorized"
    else
      match cert with
      | none =>
        .error "Can not access certificate. Either it does not exist or user does not have perms."
      | some c =>
        if c.state = CertState.pending_cc ∧ u.role = "cc" then
          .ok { c with state := CertState.pending_slo,
                       status := { c.status with
                                   cc_approved_at := some timeStr,
                                   cc_approver := some u.uid } }
        else if c.state = CertState.pending_slo ∧ u.role = "slo" then
          .ok { c with state := CertState.approved,
                       status := { c.status with
                                   slo_approved_at := some timeStr,
                                   slo_approver := some u.uid } }
        else
          .error "Can not access certificate. Either it does not exist or user does not have perms."

/-- mutations.py rejectCertificate on the located certificate: a "cc"
caller moves `pending_cc` to `rejected`, an "slo" caller moves
`pending_slo` to `rejected` (only the state field is written); every other
combination raises. -/
def rejectCertificate (user : Option Caller)
    (cert : Option Certificate) : Except String Certificate :=
  match user with
  | none => .error "Not Authenticated or Unauthorized"
  | some u =>
    if u.role ≠ "cc" ∧ u.role ≠ "slo" then
      .error "Not Authenticated or Unauthorized"
    else
      match cert with
      | none => .error "No such certificate found"
      | some c =>
        if c.state = CertState.pending_cc ∧ u.role = "cc" then
          .ok { c with state := CertState.rejected }
        else if c.state = CertState.pending_slo ∧ u.role = "slo" then
          .ok { c with state := CertState.rejected }
        else
          .error "Can not reject certificate"

/-- queries.py verifyCertificate (lines 348-366): checks run in order —
existence, not rejected, key equality, approved — each failure with its
own message. -/
def verifyCertificate (cert : Option Certificate) (key : String) :
    Except String Certificate :=
  match cert with
  | none => .error "Certificate not found"
  | some c =>
    if c.state = CertState.rejected then
      .error "Certificate has been rejected"
    else if c.key ≠ key then
      .error "Wrong key provided"
    else if c.state ≠ CertState.approved then
      .error "Certificate approval is pending"
    else
      .ok c

/-- The (year, month) start and end periods of a stored role under the
repository's own month backfill (scripts/add_month_fields.py): a role
document carries no month fields, and the migration assigns month 1 to
`start_month`, and to `end_month` exactly when `end_year` is set. -/
def backfillPeriods (r : Role) : (Nat × Nat) × Option (Nat × Nat) :=
  ((r.start_year, 1),
   match r.end_year with
   | none => none
   | some e => some (e, 1))

/-- Modelled from the spec: the month-aware future-start clamp of §4.1
rule 2 — if the proposed start (year, month) is strictly after "now",
start becomes "now" and the end is cleared. Stated for comparison with the
source's `clampRole`, which compares years only. -/
def clampStartSpec (now : Nat × Nat) (start : Nat × Nat)
    (endP : Option (Nat × Nat)) : (Nat × Nat) × Option (Nat × Nat) :=
  if now.1 < start.1 ∨ (now.1 = start.1 ∧ now.2 < start.2) then (now, none)
  else (start, endP)

/-- Modelled from the spec: the auto-approve policy of §4.2 — true iff the
caller's role is "cc" or the club's category (from the Club Directory) is
review-exempt. Stated for comparison with the source, which tests only the
caller role. -/
def autoApproveSpec (callerRoleStr clubCategory : String) : Bool :=
  callerRoleStr = "cc" ∨ clubCategory = "body" ∨ clubCategory = "admin"

/-- Whether a fallible operation succeeded (the resolver returned instead
of raising). -/
def resolverOk {α : Type} : Except String α → Bool
  | .ok _ => true
  | .error _ => false

/-
Helper lemmas.
-/

lemma assignRids_getElem? (nowMs : Nat) (l : List Role) (j i : Nat) :
    (assignRids nowMs j l)[i]? =
      (l[i]?).map (fun r => { r with rid := some (toString (nowMs + (j + i))) }) := by
  induction l generalizing j i with
  | nil => simp [assignRids]
  | cons r rs ih =>
    cases i with
    | zero => simp [assignRids]
    | succ i =>
      have h := ih (j + 1) i
      have harith : j + 1 + i = j + (i + 1) := by omega
      simpa [assignRids, harith] using h

lemma assignRids_idem (nowMs : Nat) (l : List Role) (j : Nat) :
    assignRids nowMs j (assignRids nowMs j l) = assignRids nowMs j l := by
  induction l generalizing j with
  | nil => rfl
  | cons r rs ih => simp [assignRids, ih]

lemma clampRole_fields (nowYear : Nat) (r : Role) :
    (clampRole nowYear r).approved = r.approved ∧
    (clampRole nowYear r).rejected = r.rejected ∧
    (clampRole nowYear r).deleted = r.deleted ∧
    (clampRole nowYear r).approval_time = r.approval_time ∧
    (clampRole nowYear r).rejection_time = r.rejection_time ∧
    (clampRole nowYear r).name = r.name := by
  unfold clampRole
  split <;> simp

lemma reconcileRole_of_match (isCC : Bool) (t : String) (ny : Nat)
    (pool pool' : List Role) (r i : Role)
    (h : extractMatch (clampRole ny r) pool = some (i, pool')) :
    reconcileRole isCC t ny pool r =
      ({ clampRole ny r with approved := i.approved, rejected := i.rejected,
                             deleted := i.deleted }, pool') := by
  simp [reconcileRole, h]

lemma reconcileRole_of_new (isCC : Bool) (t : String) (ny : Nat)
    (pool : List Role) (r : Role)
    (h : extractMatch (clampRole ny r) pool = none) :
    reconcileRole isCC t ny pool r =
      ({ clampRole ny r with approved := isCC,
                             approval_time := if isCC then some t else none,
                             rejection_time := none }, pool) := by
  simp [reconcileRole, h]

lemma extractMatch_mem (r : Role) (pool pool' : List Role) (i : Role)
    (h : extractMatch r pool = some (i, pool')) :
    i ∈ pool ∧ (∀ x ∈ pool', x ∈ pool) ∧ pool'.length + 1 = pool.length := by
  induction pool generalizing pool' with
  | nil => simp [extractMatch] at h
  | cons a rest ih =>
    unfold extractMatch at h
    split at h
    · injection h with h'
      injection h' with h1 h2
      subst h1; subst h2
      refine ⟨List.mem_cons_self a rest, ?_, rfl⟩
      intro x hx
      exact List.mem_cons_of_mem a hx
    · cases hrec : extractMatch r rest with
      | none => rw [hrec] at h; exact absurd h (by simp)
      | some p =>
        rw [hrec] at h
        injection h with h'
        injection h' with h1 h2
        subst h1
        obtain ⟨hmem, hsub, hlen⟩ := ih p.2 hrec
        subst h2
        constructor
        · exact List.mem_cons_of_mem a hmem
        constructor
        · intro x hx
          rcases List.mem_cons.mp hx with hxa | hxr
          · exact hxa ▸ List.mem_cons_self a rest
          · exact List.mem_cons_of_mem a (hsub x hxr)
        · simpa using hlen

lemma validateRole_ok (inp : RolesInput) (r : Role)
    (h : validateRole inp = .ok r) :
    r.rid = none ∧ r.approved = false ∧ r.approval_time = none ∧
    r.rejected = false ∧ r.rejection_time = none ∧ r.deleted = false ∧
    (∀ e, r.end_year = some e → r.start_year ≤ e) := by
  simp only [validateRole] at h
  split at h <;> try simp at h
  split at h <;> try simp at h
  split at h <;> try simp at h
  split at h <;> try simp at h
  split at h
  · split at h <;> try simp at h
    split at h <;> try simp at h
    subst h
    refine ⟨rfl, rfl, rfl, rfl, rfl, rfl, ?_⟩
    intro e he
    show inp.start_year ≤ e
    simp only [check_end_year] at he
    split at he
    · exact absurd he (by simp)
    · injection he with he'
      omega
  · injection h with h'
    subst h'
    exact ⟨rfl, rfl, rfl, rfl, rfl, rfl, by simp⟩

lemma validateRoles_ok (inputs : List RolesInput) (rs : List Role)
    (h : validateRoles inputs = .ok rs) :
    ∀ r ∈ rs,
      r.approved = false ∧ r.rejected = false ∧ r.approval_time = none ∧
      (∀ e, r.end_year = some e → r.start_year ≤ e) := by
  induction inputs generalizing rs with
  | nil =>
    simp only [validateRoles] at h
    injection h with h'
    subst h'
    intro r hr
    exact absurd hr (by simp)
  | cons i is ih =>
    simp only [validateRoles] at h
    cases hv : validateRole i with
    | error e => rw [hv] at h; exact absurd h (by simp)
    | ok r0 =>
      rw [hv] at h
      cases hvs : validateRoles is with
      | error e => rw [hvs] at h; exact absurd h (by simp)
      | ok rs0 =>
        rw [hvs] at h
        injection h with h'
        subst h'
        intro r hr
        rcases List.mem_cons.mp hr with h0 | h0
        · subst h0
          obtain ⟨_, ha, hat, hrj, _, _, hend⟩ := validateRole_ok i r hv
          exact ⟨ha, hrj, hat, hend⟩
        · exact ih rs0 hvs r h0

lemma validateRoles_startAfterEnd (inputs : List RolesInput) (rs : List Role)
    (h : validateRoles inputs = .ok rs) : startAfterEndCheck rs = false := by
  have hall := validateRoles_ok inputs rs h
  simp only [startAfterEndCheck, List.any_eq_false]
  intro r hr
  obtain ⟨_, _, _, hend⟩ := hall r hr
  cases he : r.end_year with
  | none => simp
  | some e =>
    have := hend e he
    simp
    omega

lemma rolesOk_assignRids (nowMs : Nat) :
    ∀ (l : List Role) (j : Nat), rolesOk l → rolesOk (assignRids nowMs j l) := by
  intro l
  induction l with
  | nil => intro j h r hr; simp [assignRids] at hr
  | cons a rest ih =>
    intro j h r hr
    simp only [assignRids] at hr
    rcases List.mem_cons.mp hr with h0 | h0
    · subst h0
      exact h a (List.mem_cons_self a rest)
    · exact ih (j + 1) (fun x hx => h x (List.mem_cons_of_mem a hx)) r h0

lemma rolesOk_unique_roles_id (nowMs : Nat) (l : List Role) (h : rolesOk l) :
    rolesOk (unique_roles_id nowMs l) :=
  rolesOk_assignRids nowMs l 0 h

lemma rolesOk_createRoles (isCC : Bool) (t : String) (ny : Nat)
    (rs : List Role) (h : ∀ r ∈ rs, r.rejected = false) :
    rolesOk (createRoles isCC t ny rs) := by
  intro r hr
  simp only [createRoles, List.mem_map] at hr
  obtain ⟨r0, hr0, hEq⟩ := hr
  have hflags := clampRole_fields ny r0
  subst hEq
  cases isCC with
  | true => simp [hflags.2.1, h r0 hr0]
  | false => simp [hflags.2.1, h r0 hr0]

lemma rolesOk_reconcileRoles (isCC : Bool) (t : String) (ny : Nat) :
    ∀ (rs pool : List Role), rolesOk pool →
      (∀ r ∈ rs, r.rejected = false) →
      rolesOk (reconcileRoles isCC t ny pool rs) := by
  intro rs
  induction rs with
  | nil => intro pool _ _ r hr; simp [reconcileRoles] at hr
  | cons a rest ih =>
    intro pool hpool hrs r hr
    simp only [reconcileRoles] at hr
    rcases List.mem_cons.mp hr with h0 | h0
    · subst h0
      cases hm : extractMatch (clampRole ny a) pool with
      | some p =>
        rw [reconcileRole_of_match isCC t ny pool p.2 a p.1 (by rw [hm])]
        have hi := extractMatch_mem _ _ _ _ hm
        simpa using hpool p.1 hi.1
      | none =>
        rw [reconcileRole_of_new isCC t ny pool a hm]
        have hflags := clampRole_fields ny a
        simp [hflags.2.1, hrs a (List.mem_cons_self a rest)]
    · cases hm : extractMatch (clampRole ny a) pool with
      | some p =>
        rw [reconcileRole_of_match isCC t ny pool p.2 a p.1 (by rw [hm])] at h0
        have hi := extractMatch_mem _ _ _ _ hm
        exact ih p.2 (fun x hx => hpool x (hi.2.1 x hx))
          (fun x hx => hrs x (List.mem_cons_of_mem a hx)) r h0
      | none =>
        rw [reconcileRole_of_new isCC t ny pool a hm] at h0
        exact ih pool hpool
          (fun x hx => hrs x (List.mem_cons_of_mem a hx)) r h0

lemma createMember_ok (authOk isCC : Bool) (t : String) (ny ms : Nat)
    (ex uv : Bool) (inputs : List RolesInput) (rs : List Role)
    (h : createMember authOk isCC t ny ms ex uv inputs = .ok rs) :
    ∃ rs0, validateRoles inputs = .ok rs0 ∧
      rs = unique_roles_id ms (createRoles isCC t ny rs0) := by
  cases hv : validateRoles inputs with
  | error e => simp [createMember, hv] at h
  | ok rs0 =>
    simp only [createMember, hv] at h
    split at h <;> try simp at h
    split at h <;> try simp at h
    split at h <;> try simp at h
    split at h <;> try simp at h
    split at h <;> try simp at h
    exact ⟨rs0, rfl, h.symm⟩

lemma editMember_ok (authOk isCC : Bool) (t : String) (ny ms : Nat)
    (stored : Option (List Role)) (inputs : List RolesInput) (rs : List Role)
    (h : editMember authOk isCC t ny ms stored inputs = .ok rs) :
    ∃ rs0 cur, validateRoles inputs = .ok rs0 ∧ stored = some cur ∧
      rs = unique_roles_id ms (reconcileRoles isCC t ny cur rs0) := by
  cases hv : validateRoles inputs with
  | error e => simp [editMember, hv] at h
  | ok rs0 =>
    simp only [editMember, hv] at h
    split at h <;> try simp at h
    split at h <;> try simp at h
    split at h <;> try simp at h
    cases stored with
    | none => simp at h
    | some cur =>
      simp at h
      exact ⟨rs0, cur, rfl, rfl, h.symm⟩

lemma rolesOk_map (f : Role → Role) (l : List Role)
    (hf : ∀ r, (r.approved && r.rejected) = false →
      ((f r).approved && (f r).rejected) = false)
    (h : rolesOk l) : rolesOk (l.map f) := by
  intro r hr
  simp only [List.mem_map] at hr
  obtain ⟨r0, hr0, hEq⟩ := hr
  subst hEq
  exact hf r0 (h r0 hr0)

lemma approveRole_ok (rid : Option String) (t : String) (r : Role)
    (h : (r.approved && r.rejected) = false) :
    ((approveRole rid t r).approved && (approveRole rid t r).rejected) = false := by
  unfold approveRole
  split <;> simp [h]

lemma rejectRole_ok (rid : Option String) (t : String) (r : Role)
    (h : (r.approved && r.rejected) = false) :
    ((rejectRole rid t r).approved && (rejectRole rid t r).rejected) = false := by
  unfold rejectRole
  split <;> simp [h]

lemma rolesOkState_applyOp (st : Option (List Role)) (op : Op)
    (h : rolesOkState st) : rolesOkState (applyOp st op) := by
  cases op with
  | create isCC t ny ms uv inputs =>
    simp only [applyOp]
    cases hc : createMember true isCC t ny ms st.isSome uv inputs with
    | error e => exact h
    | ok rs =>
      obtain ⟨rs0, hval, hrs⟩ := createMember_ok _ _ _ _ _ _ _ _ _ hc
      subst hrs
      exact rolesOk_unique_roles_id _ _ (rolesOk_createRoles _ _ _ _
        (fun r hr => ((validateRoles_ok _ _ hval) r hr).2.1))
  | edit isCC t ny ms inputs =>
    simp only [applyOp]
    cases hc : editMember true isCC t ny ms st inputs with
    | error e => exact h
    | ok rs =>
      obtain ⟨rs0, cur, hval, hcur, hrs⟩ := editMember_ok _ _ _ _ _ _ _ _ hc
      subst hrs
      refine rolesOk_unique_roles_id _ _ (rolesOk_reconcileRoles _ _ _ _ _ ?_
        (fun r hr => ((validateRoles_ok _ _ hval) r hr).2.1))
      rw [hcur] at h
      exact h
  | approve isCC rid t ms =>
    simp only [applyOp]
    cases hc : approveMember isCC rid t ms st with
    | error e => exact h
    | ok rs =>
      unfold approveMember at hc
      split at hc <;> try simp at hc
      cases hs : st with
      | none => rw [hs] at hc; simp at hc
      | some cur =>
        rw [hs] at hc
        simp at hc
        subst hc
        rw [hs] at h
        exact rolesOk_unique_roles_id _ _
          (rolesOk_map _ _ (approveRole_ok rid t) h)
  | reject isCC rid t ms =>
    simp only [applyOp]
    cases hc : rejectMember isCC rid t ms st with
    | error e => exact h
    | ok rs =>
      unfold rejectMember at hc
      split at hc <;> try simp at hc
      cases hs : st with
      | none => rw [hs] at hc; simp at hc
      | some cur =>
        rw [hs] at hc
        simp at hc
        subst hc
        rw [hs] at h
        exact rolesOk_unique_roles_id _ _
          (rolesOk_map _ _ (rejectRole_ok rid t) h)
  | delete rid ms =>
    simp only [applyOp]
    cases hc : deleteMember true rid ms st with
    | error e => exact h
    | ok st' =>
      unfold deleteMember at hc
      split at hc <;> try simp at hc
      cases hs : st with
      | none => rw [hs] at hc; simp at hc
      | some cur =>
        rw [hs] at hc
        cases rid with
        | none => simp at hc; subst hc; trivial
        | some s =>
          simp at hc
          subst hc
          rw [hs] at h
          refine rolesOk_unique_roles_id _ _ (rolesOk_map _ _ ?_ h)
          intro r hr
          split <;> simp_all

lemma mem_filterMap_pattern (vis : Role → Bool) (rs : List Member)
    (m' : Member) :
    (m' ∈ rs.filterMap (fun m =>
      let l := m.roles.filter vis
      if l.isEmpty then none else some { m with roles := l })) ↔
    ∃ m ∈ rs, (m.roles.filter vis).isEmpty = false ∧
      m' = { m with roles := m.roles.filter vis } := by
  rw [List.mem_filterMap]
  constructor
  · rintro ⟨m, hm, hf⟩
    refine ⟨m, hm, ?_⟩
    by_cases he : (m.roles.filter vis).isEmpty = true
    · simp [he] at hf
    · simp only [Bool.not_eq_true] at he
      simp only [he] at hf
      simp at hf
      exact ⟨he, hf.symm⟩
  · rintro ⟨m, hm, he, hEq⟩
    exact ⟨m, hm, by simp [he, hEq]⟩

lemma mem_filterMap_nonempty (vis : Role → Bool) (rs : List Member)
    (m' : Member)
    (h : m' ∈ rs.filterMap (fun m =>
      let l := m.roles.filter vis
      if l.isEmpty then none else some { m with roles := l })) :
    m'.roles ≠ [] := by
  rw [mem_filterMap_pattern] at h
  obtain ⟨m, _, he, hEq⟩ := h
  subst hEq
  intro hnil
  simp only at hnil
  rw [hnil] at he
  simp at he

/-
Claims.
-/

def roleC1 : Role :=
  { rid := some "5", name := "A", start_year := 2020 }

/-- C1 counterexample: `unique_roles_id` run at time 7 on a role that
already carries identifier "5" replaces it with "7", and a second run at
time 8 changes the list again — the claimed preservation and idempotence
both fail at this concrete input. -/
theorem c1_counterexample :
    (unique_roles_id 7 [roleC1]).map Role.rid ≠ [roleC1.rid] ∧
    unique_roles_id 8 (unique_roles_id 7 [roleC1]) ≠ unique_roles_id 7 [roleC1] := by
  constructor
  · decide
  · decide

/-- C1 (amended): `unique_roles_id` overwrites every role's identifier —
the role at index `i` always ends with rid `toString (now + i)`, whatever
rid it had — so the assigner is a no-op on a role only when its existing
identifier already equals that value; in particular two runs are identical
only at the same millisecond timestamp (idempotence at fixed `now`). -/
theorem c1_rid_assignment :
    (∀ (nowMs : Nat) (roles : List Role) (i : Nat),
      (unique_roles_id nowMs roles)[i]? =
        (roles[i]?).map (fun r => { r with rid := some (toString (nowMs + i)) })) ∧
    (∀ (nowMs : Nat) (roles : List Role),
      unique_roles_id nowMs (unique_roles_id nowMs roles) =
        unique_roles_id nowMs roles) := by
  constructor
  · intro nowMs roles i
    have h := assignRids_getElem? nowMs roles 0 i
    simpa [unique_roles_id] using h
  · intro nowMs roles
    exact assignRids_idem nowMs roles 0

def storedSecretary : Role :=
  { rid := some "1", name := "Secretary", start_year := 2022, end_year := none,
    approved := true, approval_time := some "01-01-2023 10:00 AM IST" }

/-- C2 counterexample: editing a membership whose stored "Secretary"
role is approved with timestamp "01-01-2023 10:00 AM IST", resubmitting
the identical (name, start, end), carries over `approved = true` but
resets `approval_time` to `none` — the stored timestamp is NOT carried
over onto the proposed role. -/
theorem c2_counterexample :
    editMember true false "t2" 2024 5 (some [storedSecretary])
        [⟨"Secretary", 2022, none⟩] =
      .ok [{ rid := some "5", name := "Secretary", start_year := 2022,
             end_year := none, approved := true, approval_time := none }] ∧
    storedSecretary.approval_time ≠ none := by
  constructor
  · rfl
  · decide

/-- C2 (amended): for every proposed role matching a stored role on
(name, start_year, end_year), the stored role's `approved`, `rejected`
and `deleted` flags are carried over, the matched stored role is removed
from the candidate pool (each stored role matches at most one proposed
role), and no new approval timestamp is generated — but the stored
`approval_time` and `rejection_time` are NOT carried over: the proposed
role keeps its own (input-default `none`) timestamps. -/
theorem c2_carry_over (isCC : Bool) (t : String) (ny : Nat)
    (pool pool' : List Role) (r i : Role)
    (h : extractMatch (clampRole ny r) pool = some (i, pool')) :
    reconcileRole isCC t ny pool r =
      ({ clampRole ny r with approved := i.approved, rejected := i.rejected,
                             deleted := i.deleted }, pool') ∧
    i ∈ pool ∧ pool'.length + 1 = pool.length ∧
    (∀ x ∈ pool', x ∈ pool) ∧
    (reconcileRole isCC t ny pool r).1.approval_time = r.approval_time ∧
    (reconcileRole isCC t ny pool r).1.rejection_time = r.rejection_time := by
  obtain ⟨hmem, hsub, hlen⟩ := extractMatch_mem _ _ _ _ h
  have heq := reconcileRole_of_match isCC t ny pool pool' r i h
  have hfields := clampRole_fields ny r
  refine ⟨heq, hmem, hlen, hsub, ?_, ?_⟩
  · rw [heq]
    exact hfields.2.2.2.1
  · rw [heq]
    exact hfields.2.2.2.2.1

/-- C2 witness. -/
theorem c2_carry_over_witness :
    reconcileRole false "t2" 2024 [storedSecretary]
        { name := "Secretary", start_year := 2022 } =
      ({ clampRole 2024 { name := "Secretary", start_year := 2022 } with
           approved := storedSecretary.approved,
           rejected := storedSecretary.rejected,
           deleted := storedSecretary.deleted }, []) ∧
    (reconcileRole false "t2" 2024 [storedSecretary]
      { name := "Secretary", start_year := 2022 }).1.approval_time =
        ({ name := "Secretary", start_year := 2022 } : Role).approval_time :=
  ⟨(c2_carry_over false "t2" 2024 [storedSecretary] []
      { name := "Secretary", start_year := 2022 } storedSecretary (by decide)).1,
   (c2_carry_over false "t2" 2024 [storedSecretary] []
      { name := "Secretary", start_year := 2022 } storedSecretary
      (by decide)).2.2.2.2.1⟩

/-- C3 counterexample: the spec's auto-approve policy grants approval to
a club of the review-exempt "body" category, but the code, handling the
same request from that club's own caller ("club", category "body"), stores
the new role unapproved in both createMember and editMember — the Club
Directory category is never consulted. -/
theorem c3_counterexample :
    autoApproveSpec "club" "body" = true ∧
    createMember true false "t" 2024 7 false true [⟨"X", 2022, none⟩] =
      .ok [{ rid := some "7", name := "X", start_year := 2022 }] ∧
    editMember true false "t" 2024 7 (some []) [⟨"X", 2022, none⟩] =
      .ok [{ rid := some "7", name := "X", start_year := 2022 }] := by
  refine ⟨by decide, by rfl, by rfl⟩

/-- C3 (amended): a role treated as new is auto-approved iff the caller's
role is "cc" — club category plays no part (the code never consults the
Club Directory here): editMember sets `approved := isCC` and stamps
`approval_time` only for "cc"; createMember forces approval only for "cc"
and otherwise leaves the validated role's default unapproved state. -/
theorem c3_auto_approve (isCC : Bool) (t : String) (ny : Nat)
    (pool : List Role) (r : Role)
    (h : extractMatch (clampRole ny r) pool = none) :
    (reconcileRole isCC t ny pool r).1.approved = isCC ∧
    (reconcileRole isCC t ny pool r).1.approval_time =
      (if isCC then some t else none) ∧
    (reconcileRole isCC t ny pool r).1.rejection_time = none ∧
    (∀ rs : List Role, createRoles true t ny rs =
      rs.map (fun x => { clampRole ny x with approved := true, approval_time := some t })) ∧
    (∀ rs : List Role, createRoles false t ny rs = rs.map (clampRole ny)) := by
  have heq := reconcileRole_of_new isCC t ny pool r h
  refine ⟨by rw [heq], by rw [heq], by rw [heq], ?_, ?_⟩
  · intro rs
    simp [createRoles]
  · intro rs
    simp [createRoles]

/-- C3 witness. -/
theorem c3_auto_approve_witness :
    (reconcileRole false "t" 2024 [] { name := "X", start_year := 2022 }).1.approved = false ∧
    (reconcileRole false "t" 2024 [] { name := "X", start_year := 2022 }).1.approval_time =
      (if false then some "t" else none) ∧
    (reconcileRole false "t" 2024 [] { name := "X", start_year := 2022 }).1.rejection_time = none :=
  ⟨(c3_auto_approve false "t" 2024 [] { name := "X", start_year := 2022 } (by decide)).1,
   (c3_auto_approve false "t" 2024 [] { name := "X", start_year := 2022 } (by decide)).2.1,
   (c3_auto_approve false "t" 2024 [] { name := "X", start_year := 2022 } (by decide)).2.2.1⟩

def roleC4 : Role := { name := "B", start_year := 2026, end_year := some 2027 }

/-- C4 counterexample: at "now" = (2025, June) the spec's month-aware
clamp of a role starting (2026, 1) yields start = (2025, 6); the code,
which stores no months, clamps only the year: the stored role's start
under the repository's own month backfill (migration assigns month 1) is
(2025, 1), not (2025, 6). -/
theorem c4_counterexample :
    clampStartSpec (2025, 6) (2026, 1) (some (2027, 1)) = ((2025, 6), none) ∧
    createMember true false "t" 2025 7 false true [⟨"B", 2026, some 2027⟩] =
      .ok [{ rid := some "7", name := "B", start_year := 2025, end_year := none }] ∧
    backfillPeriods (clampRole 2025 roleC4) = ((2025, 1), none) ∧
    ((2025, 1) : Nat × Nat) ≠ (2025, 6) := by
  refine ⟨by decide, by rfl, by decide, by decide⟩

/-- C4 (amended): the future-start clamp is year-granular — a submitted
role whose `start_year` strictly exceeds the current year gets
`start_year` set to the current year and `end_year` cleared, and is
otherwise untouched; both editMember (via reconcileRole) and createMember
apply exactly this clamp to every submitted role. -/
theorem c4_year_clamp (ny : Nat) (r : Role) :
    (ny < r.start_year →
      clampRole ny r = { r with start_year := ny, end_year := none }) ∧
    (r.start_year ≤ ny → clampRole ny r = r) ∧
    (∀ (isCC : Bool) (t : String) (pool : List Role),
      (reconcileRole isCC t ny pool r).1.start_year =
        (clampRole ny r).start_year ∧
      (reconcileRole isCC t ny pool r).1.end_year =
        (clampRole ny r).end_year) ∧
    (∀ (isCC : Bool) (t : String) (rs : List Role),
      (createRoles isCC t ny rs).map (fun x => (x.start_year, x.end_year)) =
        rs.map (fun x => ((clampRole ny x).start_year, (clampRole ny x).end_year))) := by
  refine ⟨?_, ?_, ?_, ?_⟩
  · intro h
    simp [clampRole, h]
  · intro h
    simp [clampRole, Nat.not_lt.mpr h]
  · intro isCC t pool
    cases hm : extractMatch (clampRole ny r) pool with
    | some p =>
      rw [reconcileRole_of_match isCC t ny pool p.2 r p.1 (by rw [hm])]
      exact ⟨rfl, rfl⟩
    | none =>
      rw [reconcileRole_of_new isCC t ny pool r hm]
      exact ⟨rfl, rfl⟩
  · intro isCC t rs
    cases isCC <;> simp [createRoles]

/-- C4 witness. -/
theorem c4_year_clamp_witness :
    clampRole 2025 roleC4 = { roleC4 with start_year := 2025, end_year := none } ∧
    clampRole 2025 storedSecretary = storedSecretary :=
  ⟨(c4_year_clamp 2025 roleC4).1 (by decide),
   (c4_year_clamp 2025 storedSecretary).2.1 (by decide)⟩

/-- C5: a role submitted with `start_year = 2023 > end_year = 2020` does
NOT fail the write: pydantic's `check_end_year` silently clears the
`end_year` before the mutations' explicit "Start year cannot be greater
than end year" check can see it, so both createMember and editMember
succeed and store the role as ongoing — and that explicit check can never
fire on pydantic-validated input (it is dead code), contradicting the
resolvers' own documented Raises lists. -/
theorem c5_start_after_end_not_rejected :
    createMember true false "t" 2024 99 false true [⟨"X", 2023, some 2020⟩] =
      .ok [{ rid := some "99", name := "X", start_year := 2023, end_year := none }] ∧
    editMember true false "t" 2024 99 (some []) [⟨"X", 2023, some 2020⟩] =
      .ok [{ rid := some "99", name := "X", start_year := 2023, end_year := none }] ∧
    (∀ (inputs : List RolesInput) (rs : List Role),
      validateRoles inputs = .ok rs → startAfterEndCheck rs = false) := by
  refine ⟨by rfl, by rfl, ?_⟩
  intro inputs rs h
  exact validateRoles_startAfterEnd inputs rs h

/-- C5 witness. -/
theorem c5_witness :
    startAfterEndCheck
      [{ name := "X", start_year := 2023, end_year := none }] = false :=
  c5_start_after_end_not_rejected.2.2 [⟨"X", 2023, some 2020⟩]
    [{ name := "X", start_year := 2023, end_year := none }] (by rfl)

/-- C6: starting from any store state satisfying the mutual-exclusion
invariant (in particular from no record at all), every sequence of
create/edit/approve/reject/delete operations preserves it — no role is
ever both approved and rejected; moreover approveMember's per-role update
on any selected role (rejected ones included) sets `approved` and clears
`rejected`/`rejection_time`, and rejectMember's symmetrically sets
`rejected` and clears `approved`/`approval_time`. -/
theorem c6_mutual_exclusion :
    (∀ (st : Option (List Role)), rolesOkState st →
      ∀ (ops : List Op), rolesOkState (applyOps ops st)) ∧
    (∀ (rid : Option String) (t : String) (r : Role),
      ridMatches rid r = true →
      approveRole rid t r = { r with approved := true, approval_time := some t,
                                     rejected := false, rejection_time := none }) ∧
    (∀ (rid : Option String) (t : String) (r : Role),
      ridMatches rid r = true →
      rejectRole rid t r = { r with approved := false, approval_time := none,
                                    rejected := true, rejection_time := some t }) := by
  refine ⟨?_, ?_, ?_⟩
  · intro st hst ops
    induction ops generalizing st with
    | nil => exact hst
    | cons op rest ih =>
      exact ih (applyOp st op) (rolesOkState_applyOp st op hst)
  · intro rid t r h
    simp [approveRole, h]
  · intro rid t r h
    simp [rejectRole, h]

def rejectedRole : Role :=
  { rid := some "9", name := "Coordinator", start_year := 2021,
    rejected := true, rejection_time := some "02-02-2022 11:00 AM IST" }

/-- C6 witness. -/
theorem c6_mutual_exclusion_witness :
    rolesOkState (applyOps
      [Op.create false "t0" 2024 3 true [⟨"Coordinator", 2021, none⟩],
       Op.approve true (some "3") "t1" 4,
       Op.reject true none "t2" 5] none) ∧
    approveRole (some "9") "t3" rejectedRole =
      { rejectedRole with approved := true, approval_time := some "t3",
                          rejected := false, rejection_time := none } ∧
    rejectRole none "t4" storedSecretary =
      { storedSecretary with approved := false, approval_time := none,
                             rejected := true, rejection_time := some "t4" } :=
  ⟨c6_mutual_exclusion.1 none trivial _,
   c6_mutual_exclusion.2.1 (some "9") "t3" rejectedRole (by decide),
   c6_mutual_exclusion.2.2 none "t4" storedSecretary (by decide)⟩

/-- C7: a freshly requested certificate is in PENDING_CC; approval and
rejection succeed exactly on the four allowed (state, actor) pairs —
PENDING_CC with a "cc" caller (approve to PENDING_SLO with cc stamps, or
reject), PENDING_SLO with an "slo" caller (approve to APPROVED with slo
stamps, or reject) — and every other combination (wrong role, missing
user, missing certificate, or a certificate already APPROVED or REJECTED)
raises, so terminal certificates are never modified again. -/
theorem c7_certificate_state_machine :
    (∀ uid num data reason key,
      (newCertificate uid num data reason key).state = CertState.pending_cc) ∧
    (∀ (u : Caller) (t : String) (c : Certificate),
      resolverOk (approveCertificate (some u) t (some c)) = true ↔
        ((c.state = CertState.pending_cc ∧ u.role = "cc") ∨
         (c.state = CertState.pending_slo ∧ u.role = "slo"))) ∧
    (∀ (u : Caller) (c : Certificate),
      resolverOk (rejectCertificate (some u) (some c)) = true ↔
        ((c.state = CertState.pending_cc ∧ u.role = "cc") ∨
         (c.state = CertState.pending_slo ∧ u.role = "slo"))) ∧
    (∀ (u : Caller) (t : String) (c : Certificate),
      c.state = CertState.pending_cc → u.role = "cc" →
      approveCertificate (some u) t (some c) =
        .ok { c with state := CertState.pending_slo,
                     status := { c.status with cc_approved_at := some t, cc_approver := some u.uid } }) ∧
    (∀ (u : Caller) (t : String) (c : Certificate),
      c.state = CertState.pending_slo → u.role = "slo" →
      approveCertificate (some u) t (some c) =
        .ok { c with state := CertState.approved,
                     status := { c.status with slo_approved_at := some t, slo_approver := some u.uid } }) ∧
    (∀ (u : Caller) (c : Certificate),
      (c.state = CertState.pending_cc ∧ u.role = "cc") ∨
        (c.state = CertState.pending_slo ∧ u.role = "slo") →
      rejectCertificate (some u) (some c) =
        .ok { c with state := CertState.rejected }) ∧
    (∀ (u : Option Caller) (t : String) (c : Certificate),
      c.state = CertState.approved ∨ c.state = CertState.rejected →
      resolverOk (approveCertificate u t (some c)) = false ∧
      resolverOk (rejectCertificate u (some c)) = false) ∧
    (∀ (u : Option Caller) (t : String),
      resolverOk (approveCertificate u t none) = false ∧
      resolverOk (rejectCertificate u none) = false) ∧
    (∀ (t : String) (c : Option Certificate),
      resolverOk (approveCertificate none t c) = false ∧
      resolverOk (rejectCertificate none c) = false) := by
  refine ⟨fun _ _ _ _ _ => rfl, ?_, ?_, ?_, ?_, ?_, ?_, ?_, ?_⟩
  · intro u t c
    by_cases h1 : u.role ≠ "cc" ∧ u.role ≠ "slo"
    · simp only [approveCertificate, if_pos h1, resolverOk]
      constructor
      · intro h; exact absurd h (by simp)
      · rintro (⟨_, h⟩ | ⟨_, h⟩) <;> simp [h] at h1
    · simp only [approveCertificate, if_neg h1]
      by_cases h2 : c.state = CertState.pending_cc ∧ u.role = "cc"
      · simp [h2, resolverOk]
      · by_cases h3 : c.state = CertState.pending_slo ∧ u.role = "slo"
        · simp [h2, h3, resolverOk]
        · simp [h2, h3, resolverOk]
  · intro u c
    by_cases h1 : u.role ≠ "cc" ∧ u.role ≠ "slo"
    · simp only [rejectCertificate, if_pos h1, resolverOk]
      constructor
      · intro h; exact absurd h (by simp)
      · rintro (⟨_, h⟩ | ⟨_, h⟩) <;> simp [h] at h1
    · simp only [rejectCertificate, if_neg h1]
      by_cases h2 : c.state = CertState.pending_cc ∧ u.role = "cc"
      · simp [h2, resolverOk]
      · by_cases h3 : c.state = CertState.pending_slo ∧ u.role = "slo"
        · simp [h2, h3, resolverOk]
        · simp [h2, h3, resolverOk]
  · intro u t c hs hr
    have h1 : ¬(u.role ≠ "cc" ∧ u.role ≠ "slo") := by simp [hr]
    simp [approveCertificate, if_neg h1, hs, hr]
  · intro u t c hs hr
    have h1 : ¬(u.role ≠ "cc" ∧ u.role ≠ "slo") := by simp [hr]
    have h2 : ¬(c.state = CertState.pending_cc ∧ u.role = "cc") := by
      simp [hs, hr]
    simp [approveCertificate, if_neg h1, h2, hs, hr]
  · intro u c h
    rcases h with ⟨hs, hr⟩ | ⟨hs, hr⟩
    · have h1 : ¬(u.role ≠ "cc" ∧ u.role ≠ "slo") := by simp [hr]
      simp [rejectCertificate, if_neg h1, hs, hr]
    · have h1 : ¬(u.role ≠ "cc" ∧ u.role ≠ "slo") := by simp [hr]
      have h2 : ¬(c.state = CertState.pending_cc ∧ u.role = "cc") := by
        simp [hs, hr]
      simp [rejectCertificate, if_neg h1, h2, hs, hr]
  · intro u t c h
    have hnl : ¬(c.state = CertState.pending_cc) ∧
        ¬(c.state = CertState.pending_slo) := by
      rcases h with h | h <;> rw [h] <;> exact ⟨by simp, by simp⟩
    cases u with
    | none => exact ⟨rfl, rfl⟩
    | some u =>
      have h2 : ¬(c.state = CertState.pending_cc ∧ u.role = "cc") :=
        fun hx => hnl.1 hx.1
      have h3 : ¬(c.state = CertState.pending_slo ∧ u.role = "slo") :=
        fun hx => hnl.2 hx.1
      constructor
      · simp only [approveCertificate, if_neg h2, if_neg h3]
        split <;> rfl
      · simp only [rejectCertificate, if_neg h2, if_neg h3]
        split <;> rfl
  · intro u t
    cases u with
    | none => exact ⟨rfl, rfl⟩
    | some u =>
      constructor
      · simp only [approveCertificate]
        split <;> rfl
      · simp only [rejectCertificate]
        split <;> rfl
  · intro t c
    exact ⟨rfl, rfl⟩

def certPending : Certificate :=
  newCertificate "u1" "SLC/2526/0001" "data" none "k1"

def certApproved : Certificate :=
  { certPending with state := CertState.approved }

/-- C7 witness. -/
theorem c7_witness :
    (newCertificate "u1" "SLC/2526/0001" "data" none "k1").state =
      CertState.pending_cc ∧
    approveCertificate (some ⟨"cc", "admin1"⟩) "t1" (some certPending) =
      .ok { certPending with state := CertState.pending_slo,
                             status := { certPending.status with cc_approved_at := some "t1", cc_approver := some "admin1" } } ∧
    rejectCertificate (some ⟨"cc", "admin1"⟩) (some certPending) =
      .ok { certPending with state := CertState.rejected } ∧
    resolverOk (approveCertificate (some ⟨"cc", "admin1"⟩) "t2"
      (some certApproved)) = false ∧
    resolverOk (rejectCertificate (some ⟨"slo", "off1"⟩)
      (some certApproved)) = false :=
  ⟨c7_certificate_state_machine.1 "u1" "SLC/2526/0001" "data" none "k1",
   c7_certificate_state_machine.2.2.2.1 ⟨"cc", "admin1"⟩ "t1" certPending
     rfl rfl,
   c7_certificate_state_machine.2.2.2.2.2.1 ⟨"cc", "admin1"⟩ certPending
     (Or.inl ⟨rfl, rfl⟩),
   (c7_certificate_state_machine.2.2.2.2.2.2.1 (some ⟨"cc", "admin1"⟩) "t2"
     certApproved (Or.inl rfl)).1,
   (c7_certificate_state_machine.2.2.2.2.2.2.1 (some ⟨"slo", "off1"⟩) "x"
     certApproved (Or.inl rfl)).2⟩

/-- C8: verifyCertificate succeeds exactly when the certificate exists,
its key equals the supplied key and its state is APPROVED (an approved
certificate is in particular not rejected), and each failure carries its
own message, checked in order: missing certificate, rejected state, wrong
key, approval still pending. -/
theorem c8_verify_certificate :
    (∀ k, verifyCertificate none k = .error "Certificate not found") ∧
    (∀ (c : Certificate) (k : String), c.state = CertState.rejected →
      verifyCertificate (some c) k = .error "Certificate has been rejected") ∧
    (∀ (c : Certificate) (k : String), c.state ≠ CertState.rejected →
      c.key ≠ k →
      verifyCertificate (some c) k = .error "Wrong key provided") ∧
    (∀ (c : Certificate) (k : String), c.state ≠ CertState.rejected →
      c.key = k → c.state ≠ CertState.approved →
      verifyCertificate (some c) k = .error "Certificate approval is pending") ∧
    (∀ (c : Certificate) (k : String), c.state = CertState.approved →
      c.key = k → verifyCertificate (some c) k = .ok c) ∧
    (∀ (c : Certificate) (k : String),
      resolverOk (verifyCertificate (some c) k) = true ↔
        (c.state = CertState.approved ∧ c.key = k)) := by
  refine ⟨fun _ => rfl, ?_, ?_, ?_, ?_, ?_⟩
  · intro c k h
    simp [verifyCertificate, h]
  · intro c k h1 h2
    simp [verifyCertificate, h1, h2]
  · intro c k h1 h2 h3
    simp [verifyCertificate, h1, h2, h3]
  · intro c k h1 h2
    have hnr : c.state ≠ CertState.rejected := by rw [h1]; simp
    simp [verifyCertificate, hnr, h1, h2]
  · intro c k
    by_cases h1 : c.state = CertState.rejected
    · simp [verifyCertificate, h1, resolverOk]
    · by_cases h2 : c.key = k
      · by_cases h3 : c.state = CertState.approved
        · simp [verifyCertificate, h1, h2, h3, resolverOk]
        · simp [verifyCertificate, h1, h2, h3, resolverOk]
      · simp [verifyCertificate, h1, h2, resolverOk]

/-- C8 witness. -/
theorem c8_witness :
    verifyCertificate (some certApproved) "k1" = .ok certApproved ∧
    verifyCertificate (some certPending) "k1" =
      .error "Certificate approval is pending" ∧
    verifyCertificate (some certApproved) "bad" =
      .error "Wrong key provided" ∧
    verifyCertificate (some { certPending with state := CertState.rejected })
      "k1" = .error "Certificate has been rejected" :=
  ⟨c8_verify_certificate.2.2.2.2.1 certApproved "k1" rfl rfl,
   c8_verify_certificate.2.2.2.1 certPending "k1" (by decide) rfl (by decide),
   c8_verify_certificate.2.2.1 certApproved "bad" (by decide) (by decide),
   c8_verify_certificate.2.1 { certPending with state := CertState.rejected }
     "k1" rfl⟩

def pendingExRole : Role := { name := "Member", start_year := 2022 }

/-- C9: in the club-members read, deleted roles are visible to no caller;
with no caller (public) a role is visible iff it is approved and not
deleted — so a pending role (`approved = false, deleted = false`) is
absent from the public view; a "cc" caller, or a "club" caller whose uid
equals the queried cid (the owning club), sees exactly the non-deleted
roles, pending and rejected included. -/
theorem c9_visibility :
    (∀ (user : Option Caller) (cid : String) (r : Role),
      r.deleted = true → memberRoleVisible user cid r = false) ∧
    (∀ (cid : String) (r : Role),
      memberRoleVisible none cid r = (!r.deleted && r.approved)) ∧
    (∀ (u : Caller) (cid : String) (r : Role), u.role = "cc" →
      memberRoleVisible (some u) cid r = !r.deleted) ∧
    (∀ (u : Caller) (cid : String) (r : Role),
      u.role = "club" → u.uid = cid →
      memberRoleVisible (some u) cid r = !r.deleted) ∧
    membersQuery none "club1" [⟨"club1", "u1", false, [pendingExRole]⟩] = [] ∧
    membersQuery (some ⟨"club", "club1"⟩) "club1"
        [⟨"club1", "u1", false, [pendingExRole]⟩] =
      [⟨"club1", "u1", false, [pendingExRole]⟩] := by
  refine ⟨?_, ?_, ?_, ?_, by decide, by decide⟩
  · intro user cid r h
    simp [memberRoleVisible, h]
  · intro cid r
    cases hd : r.deleted <;>
      simp [memberRoleVisible, privilegedForClub, hd]
  · intro u cid r h
    cases hd : r.deleted <;>
      simp [memberRoleVisible, privilegedForClub, hd, h]
  · intro u cid r h1 h2
    cases hd : r.deleted <;>
      simp [memberRoleVisible, privilegedForClub, hd, h1, h2]

/-- C9 witness. -/
theorem c9_visibility_witness :
    memberRoleVisible (some ⟨"x", "u9"⟩) "c9"
      { pendingExRole with deleted := true } = false ∧
    memberRoleVisible (some ⟨"cc", "admin1"⟩) "c9"
      { pendingExRole with rejected := true } = true ∧
    memberRoleVisible (some ⟨"club", "c9"⟩) "c9" pendingExRole = true :=
  ⟨c9_visibility.1 (some ⟨"x", "u9"⟩) "c9"
     { pendingExRole with deleted := true } rfl,
   by
     rw [c9_visibility.2.2.1 ⟨"cc", "admin1"⟩ "c9"
       { pendingExRole with rejected := true } rfl]
     decide,
   by
     rw [c9_visibility.2.2.2.1 ⟨"club", "c9"⟩ "c9" pendingExRole rfl rfl]
     decide⟩

/-- C10: every list-returning read (members, memberRoles helper,
currentMembers, pendingMembers) returns exactly the fetched Memberships
whose role list is nonempty after the caller's filtering, rewritten to
that filtered list — so a Membership whose visible role list is empty is
omitted, and no returned member entry ever has zero visible roles. -/
theorem c10_empty_after_filter_omitted :
    (∀ (user : Option Caller) (cid : String) (results : List Member)
        (m' : Member),
      m' ∈ membersQuery user cid results ↔
        ∃ m ∈ results,
          (m.roles.filter (memberRoleVisible user cid)).isEmpty = false ∧
          m' = { m with roles := m.roles.filter (memberRoleVisible user cid) }) ∧
    (∀ (user : Option Caller) (results : List Member) (m' : Member),
      m' ∈ memberRolesQuery user results ↔
        ∃ m ∈ results,
          (m.roles.filter (memberRolesVisible user)).isEmpty = false ∧
          m' = { m with roles := m.roles.filter (memberRolesVisible user) }) ∧
    (∀ (results : List Member) (m' : Member),
      m' ∈ currentMembersQuery results ↔
        ∃ m ∈ results, (m.roles.filter currentRoleVisible).isEmpty = false ∧
          m' = { m with roles := m.roles.filter currentRoleVisible }) ∧
    (∀ (results : List Member) (m' : Member),
      m' ∈ pendingMembersQuery results ↔
        ∃ m ∈ results, (m.roles.filter pendingRoleVisible).isEmpty = false ∧
          m' = { m with roles := m.roles.filter pendingRoleVisible }) ∧
    (∀ (user : Option Caller) (cid : String) (results : List Member)
        (m' : Member), m' ∈ membersQuery user cid results → m'.roles ≠ []) ∧
    (∀ (user : Option Caller) (results : List Member) (m' : Member),
      m' ∈ memberRolesQuery user results → m'.roles ≠ []) ∧
    (∀ (results : List Member) (m' : Member),
      m' ∈ currentMembersQuery results → m'.roles ≠ []) ∧
    (∀ (results : List Member) (m' : Member),
      m' ∈ pendingMembersQuery results → m'.roles ≠ []) := by
  refine ⟨?_, ?_, ?_, ?_, ?_, ?_, ?_, ?_⟩
  · intro user cid results m'
    exact mem_filterMap_pattern (memberRoleVisible user cid) results m'
  · intro user results m'
    exact mem_filterMap_pattern (memberRolesVisible user) results m'
  · intro results m'
    exact mem_filterMap_pattern currentRoleVisible results m'
  · intro results m'
    exact mem_filterMap_pattern pendingRoleVisible results m'
  · intro user cid results m' h
    exact mem_filterMap_nonempty (memberRoleVisible user cid) results m' h
  · intro user results m' h
    exact mem_filterMap_nonempty (memberRolesVisible user) results m' h
  · intro results m' h
    exact mem_filterMap_nonempty currentRoleVisible results m' h
  · intro results m' h
    exact mem_filterMap_nonempty pendingRoleVisible results m' h

def memberEx : Member := { cid := "c1", uid := "u1", roles := [storedSecretary] }

/-- C10 witness. -/
theorem c10_witness :
    memberEx.roles ≠ [] ∧
    memberEx.roles ≠ ([] : List Role) :=
  ⟨c10_empty_after_filter_omitted.2.2.2.2.1 none "c1" [memberEx] memberEx
     (by decide),
   c10_empty_after_filter_omitted.2.2.2.2.2.2.1 [memberEx] memberEx
     (by decide)⟩
